import Mathlib

/-!
Verification of the heuristic answer evaluator (`src/evaluator.py`).

The Python module is a collection of pure functions over strings.  We embed it
shallowly: a Python `str` is modelled as a `List Char` (ASCII semantics for
the character-class tests, matching the ASCII regexes of the source), Python
floats are modelled as exact rationals `ℚ`, and Python `round(x, 3)` is
modelled as exact round-half-to-even at three decimals.  `re.findall` counting
is modelled by the standard leftmost, non-overlapping scan with Python's
ordered-alternation and greedy semantics, specialised to the concrete patterns
appearing in the source.  The dispatcher `Evaluator.evaluate`, which raises
`ValueError` on an unknown category, is modelled with `Except String`.
-/

/-! ### Python string primitives -/

/-- The characters of a Lean string literal, used to transcribe Python string
literals. -/
def strL (s : String) : List Char := s.data

/-- ASCII whitespace as accepted by Python's `str.strip` and the regex class
for whitespace. -/
def isSpaceP (c : Char) : Bool :=
  c == ' ' || c == '\t' || c == '\n' || c == '\r' || c == '\x0b' || c == '\x0c'

/-- Python `str.lower()` (ASCII). -/
def pyLower (s : List Char) : List Char := s.map Char.toLower

/-- Python `str.strip()`: drop whitespace from both ends. -/
def pyStrip (s : List Char) : List Char :=
  ((s.dropWhile isSpaceP).reverse.dropWhile isSpaceP).reverse

/-- `startsWith n s` is true when `n` is an initial segment of `s`. -/
def startsWith : List Char → List Char → Bool
  | [], _ => true
  | _ :: _, [] => false
  | c :: cs, d :: ds => c == d && startsWith cs ds

/-- Python's `needle in hay` substring test. -/
def containsSub (needle : List Char) : List Char → Bool
  | [] => needle.isEmpty
  | c :: cs => startsWith needle (c :: cs) || containsSub needle cs

/-- Length of the maximal initial run of characters satisfying `p`. -/
def runLen (p : Char → Bool) : List Char → Nat
  | [] => 0
  | c :: cs => if p c then runLen p cs + 1 else 0

/-- Length of the maximal initial run of ASCII digits (`\d+` at the start). -/
def digitRun (s : List Char) : Nat := runLen Char.isDigit s

/-- Fuelled scan counting leftmost non-overlapping matches: `m` returns the
length (at least 1) of a match starting at the given position, scanning
resumes after a match.  This is `re.findall`'s counting discipline. -/
def countMatchesF (m : List Char → Option Nat) : Nat → List Char → Nat
  | 0, _ => 0
  | _, [] => 0
  | fuel + 1, c :: cs =>
    match m (c :: cs) with
    | some n => countMatchesF m fuel (List.drop (n - 1) cs) + 1
    | none => countMatchesF m fuel cs

/-- Number of matches `re.findall(pattern, s)` finds, for a pattern whose
leftmost match at a position is computed by `m`. -/
def countMatches (m : List Char → Option Nat) (s : List Char) : Nat :=
  countMatchesF m s.length s

/-- `re.search` as a Boolean: does some position of `s` (including the final
empty position) start a match accepted by `m`? -/
def searchB (m : List Char → Bool) : List Char → Bool
  | [] => m []
  | c :: cs => m (c :: cs) || searchB m cs

/-! ### Rounding: Python `round(x, 3)` on exact rationals -/

/-- Round a rational to the nearest integer, ties to even
(Python's rounding mode). -/
def rndHalfEven (q : ℚ) : ℤ :=
  let f := ⌊q⌋
  let r := q - (f : ℚ)
  if r < 1/2 then f
  else if 1/2 < r then f + 1
  else if f % 2 = 0 then f else f + 1

/-- Python `round(q, 3)` on exact rationals. -/
def round3 (q : ℚ) : ℚ := (rndHalfEven (q * 1000) : ℚ) / 1000

theorem rndHalfEven_nonneg {q : ℚ} (h : 0 ≤ q) : 0 ≤ rndHalfEven q := by
  have hf : (0 : ℤ) ≤ ⌊q⌋ := Int.floor_nonneg.mpr h
  unfold rndHalfEven
  dsimp only
  split
  · exact hf
  · split
    · omega
    · split <;> omega

theorem rndHalfEven_le {q : ℚ} {n : ℤ} (h : q ≤ (n : ℚ)) : rndHalfEven q ≤ n := by
  have hf : ⌊q⌋ ≤ n := by
    have := Int.floor_le_floor h
    simpa using this
  unfold rndHalfEven
  dsimp only
  split
  · exact hf
  · rename_i hlt
    push_neg at hlt
    have hq : (⌊q⌋ : ℚ) + 1/2 ≤ q := by linarith
    have hstrict : ⌊q⌋ < n := by
      by_contra hc
      push_neg at hc
      have : (n : ℚ) ≤ (⌊q⌋ : ℚ) := by exact_mod_cast hc
      have : q ≤ (⌊q⌋ : ℚ) := le_trans h this
      linarith
    split
    · omega
    · split <;> omega

theorem round3_nonneg {q : ℚ} (h : 0 ≤ q) : 0 ≤ round3 q := by
  unfold round3
  have h1 : (0 : ℤ) ≤ rndHalfEven (q * 1000) := rndHalfEven_nonneg (by positivity)
  have h2 : (0 : ℚ) ≤ (rndHalfEven (q * 1000) : ℚ) := by exact_mod_cast h1
  positivity

theorem round3_le_one {q : ℚ} (h : q ≤ 1) : round3 q ≤ 1 := by
  unfold round3
  have h1 : rndHalfEven (q * 1000) ≤ (1000 : ℤ) := by
    apply rndHalfEven_le
    push_cast
    linarith
  have h2 : (rndHalfEven (q * 1000) : ℚ) ≤ 1000 := by exact_mod_cast h1
  linarith

theorem rndHalfEven_ge_floor (q : ℚ) : ⌊q⌋ ≤ rndHalfEven q := by
  unfold rndHalfEven
  dsimp only
  split
  · omega
  · split
    · omega
    · split <;> omega

theorem rndHalfEven_le_floor_add_one (q : ℚ) : rndHalfEven q ≤ ⌊q⌋ + 1 := by
  unfold rndHalfEven
  dsimp only
  split
  · omega
  · split
    · omega
    · split <;> omega

theorem rndHalfEven_eq_floor {q : ℚ} (h : q - (⌊q⌋ : ℚ) < 1/2) :
    rndHalfEven q = ⌊q⌋ := by
  unfold rndHalfEven
  dsimp only
  rw [if_pos h]

theorem rndHalfEven_eq_floor_add_one {q : ℚ} (h : 1/2 < q - (⌊q⌋ : ℚ)) :
    rndHalfEven q = ⌊q⌋ + 1 := by
  unfold rndHalfEven
  dsimp only
  rw [if_neg (by linarith), if_pos h]

theorem rndHalfEven_mono {x y : ℚ} (h : x ≤ y) : rndHalfEven x ≤ rndHalfEven y := by
  have hf : ⌊x⌋ ≤ ⌊y⌋ := Int.floor_le_floor h
  rcases lt_or_eq_of_le hf with hlt | heq
  · calc rndHalfEven x ≤ ⌊x⌋ + 1 := rndHalfEven_le_floor_add_one x
      _ ≤ ⌊y⌋ := by omega
      _ ≤ rndHalfEven y := rndHalfEven_ge_floor y
  · by_cases hx : x - (⌊x⌋ : ℚ) < 1/2
    · rw [rndHalfEven_eq_floor hx, heq]
      exact rndHalfEven_ge_floor y
    · push_neg at hx
      by_cases hy : 1/2 < y - (⌊y⌋ : ℚ)
      · rw [rndHalfEven_eq_floor_add_one hy]
        calc rndHalfEven x ≤ ⌊x⌋ + 1 := rndHalfEven_le_floor_add_one x
          _ = ⌊y⌋ + 1 := by omega
      · push_neg at hy
        have hxy : x = y := by
          have h1 : x - (⌊x⌋ : ℚ) ≤ y - (⌊y⌋ : ℚ) := by
            have : ((⌊x⌋ : ℚ)) = ((⌊y⌋ : ℚ)) := by exact_mod_cast heq
            linarith
          have h2 : x - (⌊x⌋ : ℚ) = 1/2 := le_antisymm (le_trans h1 hy) hx
          have h3 : y - (⌊y⌋ : ℚ) = 1/2 := le_antisymm hy (h2 ▸ h1)
          have : ((⌊x⌋ : ℚ)) = ((⌊y⌋ : ℚ)) := by exact_mod_cast heq
          linarith
        rw [hxy]

theorem round3_mono {x y : ℚ} (h : x ≤ y) : round3 x ≤ round3 y := by
  unfold round3
  have h1 : rndHalfEven (x * 1000) ≤ rndHalfEven (y * 1000) := by
    apply rndHalfEven_mono
    linarith
  have h2 : (rndHalfEven (x * 1000) : ℚ) ≤ (rndHalfEven (y * 1000) : ℚ) := by exact_mod_cast h1
  linarith

/-- Computation rule for `round3` when the scaled value sits strictly below
the next half-integer. -/
theorem round3_eq_low {q : ℚ} {n : ℤ} (h1 : (n : ℚ) ≤ q * 1000)
    (h2 : q * 1000 - n < 1/2) : round3 q = (n : ℚ) / 1000 := by
  have hfl : ⌊q * 1000⌋ = n := by
    rw [Int.floor_eq_iff]
    constructor
    · exact h1
    · linarith
  unfold round3 rndHalfEven
  dsimp only
  rw [hfl]
  rw [if_pos (by linarith)]

/-- Computation rule for `round3` when the scaled value sits strictly above
a half-integer (round up). -/
theorem round3_eq_high {q : ℚ} {n : ℤ} (h1 : (n : ℚ) ≤ q * 1000)
    (h2 : 1/2 < q * 1000 - n) (h3 : q * 1000 < (n : ℚ) + 1) :
    round3 q = ((n : ℚ) + 1) / 1000 := by
  have hfl : ⌊q * 1000⌋ = n := by
    rw [Int.floor_eq_iff]
    exact ⟨h1, by linarith⟩
  unfold round3 rndHalfEven
  dsimp only
  rw [hfl]
  rw [if_neg (by linarith), if_pos (by linarith)]
  push_cast
  ring

/-! ### Pattern matchers specialised to the patterns of the source

Each `match*` function computes the leftmost (greedy, ordered-alternation)
match of one of the source's regular expressions starting at the head of the
given list, returning its length.  The greedy/backtracking semantics collapses
to "maximal run" because the character classes of adjacent pieces of every
pattern in the source are disjoint. -/

/-- Match of `\d+\.` at the start: a maximal digit run followed by a dot. -/
def matchNumDot (s : List Char) : Option Nat :=
  let k := digitRun s
  if k = 0 then none
  else
    match s.drop k with
    | '.' :: _ => some (k + 1)
    | _ => none

/-- Match of `step \d+` at the start. -/
def matchStepNum (s : List Char) : Option Nat :=
  if startsWith (strL "step ") s then
    let k := digitRun (s.drop 5)
    if k = 0 then none else some (5 + k)
  else none

/-- Match of an ordered alternation of literal words at the start: the first
word in the list that is a prefix wins (Python alternation order). -/
def matchAlt (ws : List (List Char)) (s : List Char) : Option Nat :=
  match ws with
  | [] => none
  | w :: rest => if startsWith w s then some w.length else matchAlt rest s

/-- ASCII upper-case letter, the class `[A-Z]`. -/
def isUpperA (c : Char) : Bool := 'A' ≤ c && c ≤ 'Z'

/-- ASCII lower-case letter, the class `[a-z]`. -/
def isLowerA (c : Char) : Bool := 'a' ≤ c && c ≤ 'z'

/-- The final `[A-Z][a-z]+` piece of the proper-name pattern. -/
def matchNameSecond : List Char → Bool
  | [] => false
  | d :: ds => isUpperA d && decide (1 ≤ runLen isLowerA ds)

/-- The `\s+[A-Z][a-z]+` tail of the proper-name pattern: at least one
whitespace character, then the second capitalised word. -/
def matchNameAfterLower (r1 : List Char) : Bool :=
  decide (1 ≤ runLen isSpaceP r1) &&
  matchNameSecond (r1.drop (runLen isSpaceP r1))

/-- The `[a-z]+\s+[A-Z][a-z]+` part following the first upper-case letter. -/
def matchNameTail (cs : List Char) : Bool :=
  decide (1 ≤ runLen isLowerA cs) &&
  matchNameAfterLower (cs.drop (runLen isLowerA cs))

/-- Match of `[A-Z][a-z]+\s+[A-Z][a-z]+` at the start (a Boolean: only the
existence of a match matters to the source, which uses `re.search`).  The
greedy `+` quantifiers collapse to maximal runs because the adjacent
character classes are disjoint. -/
def matchName : List Char → Bool
  | [] => false
  | c :: cs => isUpperA c && matchNameTail cs

/-- Match of `\n\s*[-•*]` at the start. -/
def matchBulletAt : List Char → Bool
  | '\n' :: rest =>
    (match rest.drop (runLen isSpaceP rest) with
     | b :: _ => b == '-' || b == '•' || b == '*'
     | [] => false)
  | _ => false

/-- Match of the alternation `\n\s*[-•*]|\d+\.` at the start. -/
def matchStructAt (s : List Char) : Bool := matchBulletAt s || (matchNumDot s).isSome

/-- Match of `\d+\)` at the start. -/
def matchNumParen (s : List Char) : Option Nat :=
  let k := digitRun s
  if k = 0 then none
  else
    match s.drop k with
    | ')' :: _ => some (k + 1)
    | _ => none

/-- Match of `option \d+` at the start. -/
def matchOptionNum (s : List Char) : Option Nat :=
  if startsWith (strL "option ") s then
    let k := digitRun (s.drop 7)
    if k = 0 then none else some (7 + k)
  else none

/-- Match of the alternation `\d+\)|option \d+|alternatively` at the start,
alternatives tried in the source's order. -/
def matchOptionMarker (s : List Char) : Option Nat :=
  match matchNumParen s with
  | some n => some n
  | none =>
    match matchOptionNum s with
    | some n => some n
    | none => if startsWith (strL "alternatively") s then some 13 else none

/-! ### Result records: the dictionaries returned by the four scorers -/

structure FactualResult where
  category : String
  length_score : ℚ
  specificity_score : ℚ
  clarity_score : ℚ
  total_score : ℚ
  answer_length : Nat
  has_specific_info : Bool
deriving DecidableEq

structure ProceduralResult where
  category : String
  step_score : ℚ
  logic_score : ℚ
  action_score : ℚ
  total_score : ℚ
  step_markers_found : Nat
  connectors_found : Nat
  actions_found : Nat
deriving DecidableEq

structure ComparativeResult where
  category : String
  comparison_score : ℚ
  dimension_score : ℚ
  structure_score : ℚ
  length_score : ℚ
  total_score : ℚ
  comparison_words_found : Nat
  dimensions_found : Nat
deriving DecidableEq

structure RecommendationResult where
  category : String
  recommendation_score : ℚ
  reasoning_score : ℚ
  constraint_score : ℚ
  diversity_score : ℚ
  total_score : ℚ
  has_recommendation : Bool
  reasoning_indicators : Nat
  constraint_awareness : Nat
deriving DecidableEq

/-- The value returned by the dispatcher: one of the four result shapes. -/
inductive EvalResult where
  | factual : FactualResult → EvalResult
  | procedural : ProceduralResult → EvalResult
  | comparative : ComparativeResult → EvalResult
  | recommendation : RecommendationResult → EvalResult
deriving DecidableEq

/-- The aggregate score of a result, whichever category produced it. -/
def EvalResult.total_score : EvalResult → ℚ
  | .factual r => r.total_score
  | .procedural r => r.total_score
  | .comparative r => r.total_score
  | .recommendation r => r.total_score

namespace Evaluator

/-! ### `evaluate_factual` -/

/-- `answer.lower().strip()` as computed at the top of `evaluate_factual`. -/
def factualAnswerLower (answer : List Char) : List Char := pyStrip (pyLower answer)

/-- The length band of `evaluate_factual`: terse answers score best. -/
def factualLengthScore (answer : List Char) : ℚ :=
  if answer.length ≤ 150 then 1 else if answer.length ≤ 300 then 0.8 else 0.5

/-- `re.search(r'\d+', answer)`: some ASCII digit occurs. -/
def factualHasNumber (answer : List Char) : Bool := answer.any Char.isDigit

/-- `re.search(r'http|www\.', answer_lower)`. -/
def factualHasURL (answer : List Char) : Bool :=
  containsSub (strL "http") (factualAnswerLower answer) ||
  containsSub (strL "www.") (factualAnswerLower answer)

/-- `re.search(r'[A-Z][a-z]+\s+[A-Z][a-z]+', answer)`. -/
def factualHasName (answer : List Char) : Bool := searchB matchName answer

/-- The additive-evidence specificity score as a function of the three
detector flags. -/
def specRaw (hn hu hs : Bool) : ℚ :=
  (if hn then 0.4 else 0) + (if hu then 0.3 else 0) + (if hs then 0.3 else 0)

def factualSpecificityScore (answer : List Char) : ℚ :=
  specRaw (factualHasNumber answer) (factualHasURL answer) (factualHasName answer)

/-- ASCII apostrophe, written by code point to keep the file free of quote
characters inside string literals. -/
def apos : Char := Char.ofNat 39

/-- The vague-language marker list of the source (the last entry is
`i don` + apostrophe + `t know`). -/
def vague_terms : List (List Char) :=
  [strL "maybe", strL "might", strL "possibly", strL "unclear",
   ['i', ' ', 'd', 'o', 'n', apos, 't', ' ', 'k', 'n', 'o', 'w']]

def factualHasVague (answer : List Char) : Bool :=
  vague_terms.any (fun t => containsSub t (factualAnswerLower answer))

def factualClarityScore (answer : List Char) : ℚ :=
  if factualHasVague answer then 0 else 1

def factualTotalRaw (answer : List Char) : ℚ :=
  0.3 * factualLengthScore answer + 0.4 * factualSpecificityScore answer +
  0.3 * factualClarityScore answer

def evaluate_factual (answer : List Char) : FactualResult :=
  { category := "factual"
    length_score := round3 (factualLengthScore answer)
    specificity_score := round3 (factualSpecificityScore answer)
    clarity_score := round3 (factualClarityScore answer)
    total_score := round3 (factualTotalRaw answer)
    answer_length := answer.length
    has_specific_info :=
      factualHasNumber answer || factualHasURL answer || factualHasName answer }

/-! ### `evaluate_procedural` -/

def step_patterns : List (List Char → Option Nat) :=
  [matchNumDot, matchStepNum,
   matchAlt [strL "first", strL "second", strL "third", strL "then",
             strL "next", strL "finally"]]

/-- The summed `re.findall` counts over the three step patterns. -/
def procStepMarkers (answer : List Char) : Nat :=
  (step_patterns.map (fun p => countMatches p (pyLower answer))).sum

def procStepScore (answer : List Char) : ℚ :=
  min ((procStepMarkers answer : ℚ) / 3) 1

def connectors : List (List Char) :=
  [strL "first", strL "then", strL "next", strL "after", strL "finally",
   strL "before"]

/-- `sum(1 for c in connectors if c in answer_lower)`. -/
def procConnectorCount (answer : List Char) : Nat :=
  (connectors.filter (fun c => containsSub c (pyLower answer))).length

def procLogicScore (answer : List Char) : ℚ :=
  min ((procConnectorCount answer : ℚ) / 3) 1

def action_verbs : List (List Char) :=
  [strL "click", strL "go", strL "visit", strL "submit", strL "fill",
   strL "select", strL "open", strL "enter"]

def procActionCount (answer : List Char) : Nat :=
  (action_verbs.filter (fun v => containsSub v (pyLower answer))).length

def procActionScore (answer : List Char) : ℚ :=
  min ((procActionCount answer : ℚ) / 4) 1

def procTotalRaw (answer : List Char) : ℚ :=
  0.4 * procStepScore answer + 0.3 * procLogicScore answer +
  0.3 * procActionScore answer

def evaluate_procedural (answer : List Char) : ProceduralResult :=
  { category := "procedural"
    step_score := round3 (procStepScore answer)
    logic_score := round3 (procLogicScore answer)
    action_score := round3 (procActionScore answer)
    total_score := round3 (procTotalRaw answer)
    step_markers_found := procStepMarkers answer
    connectors_found := procConnectorCount answer
    actions_found := procActionCount answer }

/-! ### `evaluate_comparative` -/

def comparison_words : List (List Char) :=
  [strL "compare", strL "difference", strL "similar", strL "both",
   strL "while", strL "whereas", strL "however", strL "in contrast",
   strL "on the other hand"]

def compComparisonCount (answer : List Char) : Nat :=
  (comparison_words.filter (fun w => containsSub w (pyLower answer))).length

def compComparisonScore (answer : List Char) : ℚ :=
  min ((compComparisonCount answer : ℚ) / 3) 1

def dimensions : List (List Char) :=
  [strL "cost", strL "location", strL "facility", strL "time",
   strL "quality", strL "size", strL "distance"]

def compDimensionCount (answer : List Char) : Nat :=
  (dimensions.filter (fun d => containsSub d (pyLower answer))).length

def compDimensionScore (answer : List Char) : ℚ :=
  min ((compDimensionCount answer : ℚ) / 2) 1

/-- `re.search(r'\n\s*[-•*]|\d+\.', answer)`, on the original-case text. -/
def compHasStructure (answer : List Char) : Bool := searchB matchStructAt answer

def compStructureScore (answer : List Char) : ℚ :=
  if compHasStructure answer then 1 else 0.5

/-- The length band of `evaluate_comparative`: detailed answers score best. -/
def compLengthScore (answer : List Char) : ℚ :=
  if 200 ≤ answer.length then 1 else if 100 ≤ answer.length then 0.7 else 0.4

def compTotalRaw (answer : List Char) : ℚ :=
  0.3 * compComparisonScore answer + 0.3 * compDimensionScore answer +
  0.2 * compStructureScore answer + 0.2 * compLengthScore answer

def evaluate_comparative (answer : List Char) : ComparativeResult :=
  { category := "comparative"
    comparison_score := round3 (compComparisonScore answer)
    dimension_score := round3 (compDimensionScore answer)
    structure_score := round3 (compStructureScore answer)
    length_score := round3 (compLengthScore answer)
    total_score := round3 (compTotalRaw answer)
    comparison_words_found := compComparisonCount answer
    dimensions_found := compDimensionCount answer }

/-! ### `evaluate_recommendation` -/

/-- `re.search(r'recommend|suggest|should|could try', answer_lower)`. -/
def recHasRecommendation (answer : List Char) : Bool :=
  containsSub (strL "recommend") (pyLower answer) ||
  containsSub (strL "suggest") (pyLower answer) ||
  containsSub (strL "should") (pyLower answer) ||
  containsSub (strL "could try") (pyLower answer)

def recRecommendationScore (answer : List Char) : ℚ :=
  if recHasRecommendation answer then 1 else 0

def reasoning_words : List (List Char) :=
  [strL "because", strL "since", strL "as", strL "due to", strL "offers",
   strL "provides", strL "has"]

def recReasoningCount (answer : List Char) : Nat :=
  (reasoning_words.filter (fun w => containsSub w (pyLower answer))).length

def recReasoningScore (answer : List Char) : ℚ :=
  min ((recReasoningCount answer : ℚ) / 2) 1

def constraint_words : List (List Char) :=
  [strL "budget", strL "time", strL "location", strL "prefer", strL "near",
   strL "available", strL "suitable"]

def recConstraintCount (answer : List Char) : Nat :=
  (constraint_words.filter (fun w => containsSub w (pyLower answer))).length

def recConstraintScore (answer : List Char) : ℚ :=
  min ((recConstraintCount answer : ℚ) / 2) 1

/-- `len(re.findall(r'\d+\)|option \d+|alternatively', answer_lower))`. -/
def recOptionMarkers (answer : List Char) : Nat :=
  countMatches matchOptionMarker (pyLower answer)

def recDiversityScore (answer : List Char) : ℚ :=
  min ((recOptionMarkers answer : ℚ) / 2) 1

def recTotalRaw (answer : List Char) : ℚ :=
  0.3 * recRecommendationScore answer + 0.3 * recReasoningScore answer +
  0.25 * recConstraintScore answer + 0.15 * recDiversityScore answer

def evaluate_recommendation (answer : List Char) : RecommendationResult :=
  { category := "recommendation"
    recommendation_score := round3 (recRecommendationScore answer)
    reasoning_score := round3 (recReasoningScore answer)
    constraint_score := round3 (recConstraintScore answer)
    diversity_score := round3 (recDiversityScore answer)
    total_score := round3 (recTotalRaw answer)
    has_recommendation := recHasRecommendation answer
    reasoning_indicators := recReasoningCount answer
    constraint_awareness := recConstraintCount answer }

/-! ### The dispatcher `Evaluator.evaluate`

The Python dictionary lookup followed by `raise ValueError(...)` on a missing
key is modelled by a chain of string comparisons ending in `Except.error`
carrying the same message. -/

def evaluate (answer : List Char) (question_type : String) :
    Except String EvalResult :=
  if question_type = "factual" then
    Except.ok (EvalResult.factual (evaluate_factual answer))
  else if question_type = "procedural" then
    Except.ok (EvalResult.procedural (evaluate_procedural answer))
  else if question_type = "comparative" then
    Except.ok (EvalResult.comparative (evaluate_comparative answer))
  else if question_type = "recommendation" then
    Except.ok (EvalResult.recommendation (evaluate_recommendation answer))
  else Except.error ("Unknown question type: " ++ question_type)

end Evaluator

/-! ### Lemmas about the string primitives -/

theorem startsWith_iff {n s : List Char} :
    startsWith n s = true ↔ ∃ t, s = n ++ t := by
  induction n generalizing s with
  | nil => simp [startsWith]
  | cons c cs ih =>
    cases s with
    | nil => simp [startsWith]
    | cons d ds =>
      simp only [startsWith, Bool.and_eq_true, beq_iff_eq]
      constructor
      · rintro ⟨rfl, h⟩
        obtain ⟨t, rfl⟩ := ih.mp h
        exact ⟨t, rfl⟩
      · rintro ⟨t, ht⟩
        cases ht
        exact ⟨rfl, ih.mpr ⟨t, rfl⟩⟩

theorem containsSub_iff {n s : List Char} :
    containsSub n s = true ↔ ∃ a b, s = a ++ n ++ b := by
  induction s with
  | nil =>
    simp only [containsSub, List.isEmpty_iff]
    constructor
    · rintro rfl
      exact ⟨[], [], rfl⟩
    · rintro ⟨a, b, h⟩
      rcases List.append_eq_nil.mp (List.append_eq_nil.mp h.symm).1 with ⟨-, h2⟩
      exact h2
  | cons c cs ih =>
    simp only [containsSub, Bool.or_eq_true, startsWith_iff, ih]
    constructor
    · rintro (⟨t, ht⟩ | ⟨a, b, rfl⟩)
      · exact ⟨[], t, by simpa using ht⟩
      · exact ⟨c :: a, b, rfl⟩
    · rintro ⟨a, b, h⟩
      cases a with
      | nil =>
        left
        exact ⟨b, by simpa using h⟩
      | cons x xs =>
        right
        rw [List.cons_append, List.cons_append] at h
        obtain ⟨-, h2⟩ := List.cons_eq_cons.mp h
        exact ⟨xs, b, by simpa using h2⟩

theorem containsSub_append_right {n s : List Char} (t : List Char)
    (h : containsSub n s = true) : containsSub n (s ++ t) = true := by
  obtain ⟨a, b, rfl⟩ := containsSub_iff.mp h
  exact containsSub_iff.mpr ⟨a, b ++ t, by simp⟩

theorem containsSub_append_left {n t : List Char} (s : List Char)
    (h : containsSub n t = true) : containsSub n (s ++ t) = true := by
  obtain ⟨a, b, rfl⟩ := containsSub_iff.mp h
  exact containsSub_iff.mpr ⟨s ++ a, b, by simp⟩

theorem containsSub_reverse {n s : List Char} :
    containsSub n s.reverse = containsSub n.reverse s := by
  rw [Bool.eq_iff_iff]
  simp only [containsSub_iff]
  constructor
  · rintro ⟨a, b, hab⟩
    refine ⟨b.reverse, a.reverse, ?_⟩
    have h := congrArg List.reverse hab
    simpa [List.reverse_append, List.append_assoc] using h
  · rintro ⟨a, b, hab⟩
    refine ⟨b.reverse, a.reverse, ?_⟩
    have h := congrArg List.reverse hab
    simpa [List.reverse_append, List.append_assoc] using h

theorem containsSub_dropWhile {p : Char → Bool} {n0 : Char} {n' s : List Char}
    (hn : p n0 = false) :
    containsSub (n0 :: n') (s.dropWhile p) = containsSub (n0 :: n') s := by
  induction s with
  | nil => rfl
  | cons c cs ih =>
    by_cases hc : p c
    · rw [List.dropWhile_cons_of_pos hc, ih]
      have hsw : startsWith (n0 :: n') (c :: cs) = false := by
        simp only [startsWith, Bool.and_eq_false_iff, beq_eq_false_iff_ne]
        left
        intro hEq
        rw [hEq] at hn
        rw [hn] at hc
        exact Bool.false_ne_true hc
      simp [containsSub, hsw]
    · rw [List.dropWhile_cons_of_neg hc]

theorem containsSub_pyStrip {n s : List Char}
    (h1 : ∃ n0 n', n = n0 :: n' ∧ isSpaceP n0 = false)
    (h2 : ∃ m0 m', n.reverse = m0 :: m' ∧ isSpaceP m0 = false) :
    containsSub n (pyStrip s) = containsSub n s := by
  obtain ⟨n0, n', hn, hn0⟩ := h1
  obtain ⟨m0, m', hm, hm0⟩ := h2
  unfold pyStrip
  rw [containsSub_reverse]
  rw [hm, containsSub_dropWhile hm0, ← hm]
  rw [← containsSub_reverse]
  rw [List.reverse_reverse]
  rw [hn, containsSub_dropWhile hn0, ← hn]

/-! ### Lemmas about runs and scans -/

theorem runLen_le_length (p : Char → Bool) (s : List Char) :
    runLen p s ≤ s.length := by
  induction s with
  | nil => simp [runLen]
  | cons c cs ih =>
    simp only [runLen, List.length_cons]
    split
    · omega
    · omega

theorem runLen_append_of_lt {p : Char → Bool} {s : List Char} (t : List Char)
    (h : runLen p s < s.length) : runLen p (s ++ t) = runLen p s := by
  induction s with
  | nil => simp at h
  | cons c cs ih =>
    by_cases hc : p c = true
    · simp only [List.cons_append, runLen, if_pos hc]
      have hh : runLen p cs < cs.length := by
        simp only [runLen, if_pos hc, List.length_cons] at h
        omega
      show runLen p (cs ++ t) + 1 = runLen p cs + 1
      rw [ih hh]
    · simp only [List.cons_append, runLen, if_neg hc]

theorem runLen_pos_append {p : Char → Bool} {s : List Char} (t : List Char)
    (h : 1 ≤ runLen p s) : 1 ≤ runLen p (s ++ t) := by
  cases s with
  | nil => simp [runLen] at h
  | cons c cs =>
    by_cases hc : p c = true
    · simp only [List.cons_append, runLen, if_pos hc]
      omega
    · simp only [runLen, if_neg hc] at h
      omega

theorem drop_ne_nil_imp_lt {s : List Char} {k : Nat}
    (h : s.drop k ≠ []) : k < s.length := by
  by_contra hc
  push_neg at hc
  rw [List.drop_eq_nil_of_le hc] at h
  exact h rfl

theorem matchNameSecond_append {u : List Char} (t : List Char)
    (h : matchNameSecond u = true) : matchNameSecond (u ++ t) = true := by
  cases u with
  | nil => simp [matchNameSecond] at h
  | cons d ds =>
    simp only [List.cons_append, matchNameSecond, Bool.and_eq_true,
      decide_eq_true_eq] at h ⊢
    exact ⟨h.1, runLen_pos_append t h.2⟩

theorem matchNameAfterLower_append {r1 : List Char} (t : List Char)
    (h : matchNameAfterLower r1 = true) : matchNameAfterLower (r1 ++ t) = true := by
  unfold matchNameAfterLower at h ⊢
  simp only [Bool.and_eq_true, decide_eq_true_eq] at h ⊢
  obtain ⟨hk2, h3⟩ := h
  have hne : r1.drop (runLen isSpaceP r1) ≠ [] := by
    intro hnil
    rw [hnil] at h3
    simp [matchNameSecond] at h3
  have hlt : runLen isSpaceP r1 < r1.length := drop_ne_nil_imp_lt hne
  rw [runLen_append_of_lt t hlt]
  refine ⟨hk2, ?_⟩
  rw [List.drop_append_of_le_length (le_of_lt hlt)]
  exact matchNameSecond_append t h3

theorem matchNameTail_append {cs : List Char} (t : List Char)
    (h : matchNameTail cs = true) : matchNameTail (cs ++ t) = true := by
  unfold matchNameTail at h ⊢
  simp only [Bool.and_eq_true, decide_eq_true_eq] at h ⊢
  obtain ⟨hk1, h2⟩ := h
  have hne : cs.drop (runLen isLowerA cs) ≠ [] := by
    intro hnil
    rw [hnil] at h2
    simp [matchNameAfterLower, runLen] at h2
  have hlt : runLen isLowerA cs < cs.length := drop_ne_nil_imp_lt hne
  rw [runLen_append_of_lt t hlt]
  refine ⟨hk1, ?_⟩
  rw [List.drop_append_of_le_length (le_of_lt hlt)]
  exact matchNameAfterLower_append t h2

/-- A match of `[A-Z][a-z]+\s+[A-Z][a-z]+` survives appending text on the
right. -/
theorem matchName_append {u : List Char} (t : List Char)
    (h : matchName u = true) : matchName (u ++ t) = true := by
  cases u with
  | nil => simp [matchName] at h
  | cons c cs =>
    simp only [List.cons_append, matchName, Bool.and_eq_true] at h ⊢
    exact ⟨h.1, matchNameTail_append t h.2⟩

/-- If every match survives appending `t`, so does a successful search. -/
theorem searchB_append_of {m : List Char → Bool} {s : List Char} (t : List Char)
    (hm : ∀ u : List Char, m u = true → m (u ++ t) = true)
    (h : searchB m s = true) : searchB m (s ++ t) = true := by
  induction s with
  | nil =>
    simp only [searchB] at h
    have h2 := hm [] h
    simp only [List.nil_append] at h2 ⊢
    cases t with
    | nil => simpa [searchB] using h2
    | cons c cs => simp [searchB, h2]
  | cons c cs ih =>
    simp only [searchB, Bool.or_eq_true, List.cons_append] at h ⊢
    rcases h with h | h
    · exact Or.inl (hm (c :: cs) h)
    · exact Or.inr (ih h)

/-! ### Counting lemmas for the word-membership scores -/

theorem length_filter_two {α : Type} (p : α → Bool) (l1 l2 l3 : List α)
    (w1 w2 : α) (h1 : p w1 = true) (h2 : p w2 = true) :
    2 ≤ ((l1 ++ w1 :: (l2 ++ w2 :: l3)).filter p).length := by
  simp [List.filter_append, List.filter_cons, h1, h2]
  omega

/-! ### Bounds for the clamped sub-scores -/

theorem min_div_nonneg (k : Nat) (d : ℚ) (hd : 0 < d) :
    0 ≤ min ((k : ℚ) / d) 1 := by
  apply le_min
  · positivity
  · norm_num

theorem min_div_le_one (k : Nat) (d : ℚ) : min ((k : ℚ) / d) 1 ≤ 1 :=
  min_le_right _ _

theorem min_div_eq_one {k : Nat} {d : ℚ} (hd : 0 < d) (h : d ≤ (k : ℚ)) :
    min ((k : ℚ) / d) 1 = 1 := by
  apply min_eq_right
  rw [le_div_iff₀ hd]
  linarith

/-! ### Bounds for each category's sub-scores and raw totals -/

namespace Evaluator

theorem factualLengthScore_bounds (a : List Char) :
    0 ≤ factualLengthScore a ∧ factualLengthScore a ≤ 1 := by
  unfold factualLengthScore
  split
  · norm_num
  · split <;> norm_num

theorem specRaw_bounds (hn hu hs : Bool) :
    0 ≤ specRaw hn hu hs ∧ specRaw hn hu hs ≤ 1 := by
  cases hn <;> cases hu <;> cases hs <;> norm_num [specRaw]

theorem factualClarityScore_bounds (a : List Char) :
    0 ≤ factualClarityScore a ∧ factualClarityScore a ≤ 1 := by
  unfold factualClarityScore
  split <;> norm_num

theorem factualTotalRaw_bounds (a : List Char) :
    0 ≤ factualTotalRaw a ∧ factualTotalRaw a ≤ 1 := by
  obtain ⟨l1, l2⟩ := factualLengthScore_bounds a
  obtain ⟨s1, s2⟩ := specRaw_bounds (factualHasNumber a) (factualHasURL a) (factualHasName a)
  obtain ⟨c1, c2⟩ := factualClarityScore_bounds a
  unfold factualTotalRaw factualSpecificityScore
  constructor <;> nlinarith

theorem procTotalRaw_bounds (a : List Char) :
    0 ≤ procTotalRaw a ∧ procTotalRaw a ≤ 1 := by
  have s1 := min_div_nonneg (procStepMarkers a) 3 (by norm_num)
  have s2 := min_div_le_one (procStepMarkers a) 3
  have l1 := min_div_nonneg (procConnectorCount a) 3 (by norm_num)
  have l2 := min_div_le_one (procConnectorCount a) 3
  have a1 := min_div_nonneg (procActionCount a) 4 (by norm_num)
  have a2 := min_div_le_one (procActionCount a) 4
  unfold procTotalRaw procStepScore procLogicScore procActionScore
  constructor <;> nlinarith

theorem compStructureScore_bounds (a : List Char) :
    0 ≤ compStructureScore a ∧ compStructureScore a ≤ 1 := by
  unfold compStructureScore
  split <;> norm_num

theorem compLengthScore_bounds (a : List Char) :
    0 ≤ compLengthScore a ∧ compLengthScore a ≤ 1 := by
  unfold compLengthScore
  split
  · norm_num
  · split <;> norm_num

theorem compTotalRaw_bounds (a : List Char) :
    0 ≤ compTotalRaw a ∧ compTotalRaw a ≤ 1 := by
  have c1 := min_div_nonneg (compComparisonCount a) 3 (by norm_num)
  have c2 := min_div_le_one (compComparisonCount a) 3
  have d1 := min_div_nonneg (compDimensionCount a) 2 (by norm_num)
  have d2 := min_div_le_one (compDimensionCount a) 2
  obtain ⟨s1, s2⟩ := compStructureScore_bounds a
  obtain ⟨l1, l2⟩ := compLengthScore_bounds a
  unfold compTotalRaw compComparisonScore compDimensionScore
  constructor <;> nlinarith

theorem recRecommendationScore_bounds (a : List Char) :
    0 ≤ recRecommendationScore a ∧ recRecommendationScore a ≤ 1 := by
  unfold recRecommendationScore
  split <;> norm_num

theorem recTotalRaw_bounds (a : List Char) :
    0 ≤ recTotalRaw a ∧ recTotalRaw a ≤ 1 := by
  obtain ⟨r1, r2⟩ := recRecommendationScore_bounds a
  have s1 := min_div_nonneg (recReasoningCount a) 2 (by norm_num)
  have s2 := min_div_le_one (recReasoningCount a) 2
  have c1 := min_div_nonneg (recConstraintCount a) 2 (by norm_num)
  have c2 := min_div_le_one (recConstraintCount a) 2
  have d1 := min_div_nonneg (recOptionMarkers a) 2 (by norm_num)
  have d2 := min_div_le_one (recOptionMarkers a) 2
  unfold recTotalRaw recReasoningScore recConstraintScore recDiversityScore
  constructor <;> nlinarith

end Evaluator

/-! ### Claim C1 -/

/-- C1: for every input string (including the empty string) and each of the
four categories, the `total_score` of the result of `evaluate` lies in the
closed interval `[0, 1]`. -/
theorem C1_total_score_in_unit_interval (answer : List Char) (cat : String)
    (r : EvalResult) (h : Evaluator.evaluate answer cat = Except.ok r) :
    0 ≤ r.total_score ∧ r.total_score ≤ 1 := by
  unfold Evaluator.evaluate at h
  split_ifs at h
  · injection h with h2
    subst h2
    obtain ⟨b1, b2⟩ := Evaluator.factualTotalRaw_bounds answer
    exact ⟨round3_nonneg b1, round3_le_one b2⟩
  · injection h with h2
    subst h2
    obtain ⟨b1, b2⟩ := Evaluator.procTotalRaw_bounds answer
    exact ⟨round3_nonneg b1, round3_le_one b2⟩
  · injection h with h2
    subst h2
    obtain ⟨b1, b2⟩ := Evaluator.compTotalRaw_bounds answer
    exact ⟨round3_nonneg b1, round3_le_one b2⟩
  · injection h with h2
    subst h2
    obtain ⟨b1, b2⟩ := Evaluator.recTotalRaw_bounds answer
    exact ⟨round3_nonneg b1, round3_le_one b2⟩

/-- Witness for C1 at a concrete input. -/
theorem C1_witness :
    0 ≤ (EvalResult.factual (Evaluator.evaluate_factual [])).total_score ∧
    (EvalResult.factual (Evaluator.evaluate_factual [])).total_score ≤ 1 :=
  C1_total_score_in_unit_interval [] "factual" _ rfl

/-! ### Claim C2 -/

/-- C2: `evaluate` succeeds exactly on the four recognised categories, and on
any other category it fails with the dispatcher's error (the `ValueError` of
the source, the spec's `InvalidCategory`), with no fallback scoring. -/
theorem C2_dispatcher_error_iff (answer : List Char) (cat : String) :
    ((∃ r, Evaluator.evaluate answer cat = Except.ok r) ↔
      (cat = "factual" ∨ cat = "procedural" ∨ cat = "comparative" ∨
        cat = "recommendation")) ∧
    (¬(cat = "factual" ∨ cat = "procedural" ∨ cat = "comparative" ∨
        cat = "recommendation") →
      Evaluator.evaluate answer cat =
        Except.error ("Unknown question type: " ++ cat)) := by
  unfold Evaluator.evaluate
  split_ifs with h1 h2 h3 h4
  · exact ⟨⟨fun _ => Or.inl h1, fun _ => ⟨_, rfl⟩⟩,
      fun hn => absurd (Or.inl h1) hn⟩
  · exact ⟨⟨fun _ => Or.inr (Or.inl h2), fun _ => ⟨_, rfl⟩⟩,
      fun hn => absurd (Or.inr (Or.inl h2)) hn⟩
  · exact ⟨⟨fun _ => Or.inr (Or.inr (Or.inl h3)), fun _ => ⟨_, rfl⟩⟩,
      fun hn => absurd (Or.inr (Or.inr (Or.inl h3))) hn⟩
  · exact ⟨⟨fun _ => Or.inr (Or.inr (Or.inr h4)), fun _ => ⟨_, rfl⟩⟩,
      fun hn => absurd (Or.inr (Or.inr (Or.inr h4))) hn⟩
  · constructor
    · constructor
      · rintro ⟨r, hr⟩
        exact absurd hr (by simp)
      · rintro (h | h | h | h)
        · exact absurd h h1
        · exact absurd h h2
        · exact absurd h h3
        · exact absurd h h4
    · intro _
      rfl

/-- Witness for C2: an unknown category produces the dispatcher error. -/
theorem C2_witness :
    Evaluator.evaluate [] "unknown_type" =
      Except.error ("Unknown question type: " ++ "unknown_type") :=
  (C2_dispatcher_error_iff [] "unknown_type").2 (by simp)

/-! ### Concrete values of `round3` used below -/

theorem round3_zero : round3 0 = 0 := by
  have h := round3_eq_low (q := 0) (n := 0) (by norm_num) (by norm_num)
  rw [h]
  norm_num

theorem round3_one : round3 1 = 1 := by
  have h := round3_eq_low (q := 1) (n := 1000) (by norm_num) (by norm_num)
  rw [h]
  norm_num

theorem round3_half : round3 (1/2) = 1/2 := by
  have h := round3_eq_low (q := 1/2) (n := 500) (by norm_num) (by norm_num)
  rw [h]
  norm_num

/-! ### Bridging the stripped lower-cased text to the lower-cased text -/

theorem containsSub_pyStrip_of {n : List Char} (s : List Char) (hne : n ≠ [])
    (h1 : isSpaceP n.headI = false) (h2 : isSpaceP n.reverse.headI = false) :
    containsSub n (pyStrip s) = containsSub n s := by
  cases n with
  | nil => exact absurd rfl hne
  | cons n0 n' =>
    rcases hm : (n0 :: n').reverse with _ | ⟨m0, m'⟩
    · exact absurd hm (by simp)
    · refine containsSub_pyStrip ⟨n0, n', rfl, by simpa using h1⟩
        ⟨m0, m', hm, ?_⟩
      rw [hm] at h2
      simpa using h2

/-- The URL detector of `evaluate_factual` does not depend on the `strip()`:
it is the substring test on the lower-cased text. -/
theorem factualHasURL_eq_lower (answer : List Char) :
    Evaluator.factualHasURL answer =
      (containsSub (strL "http") (pyLower answer) ||
       containsSub (strL "www.") (pyLower answer)) := by
  unfold Evaluator.factualHasURL Evaluator.factualAnswerLower
  rw [containsSub_pyStrip_of (pyLower answer) (by decide) (by decide) (by decide),
    containsSub_pyStrip_of (pyLower answer) (by decide) (by decide) (by decide)]

/-- The vague-language detector of `evaluate_factual` does not depend on the
`strip()`: it is the substring test on the lower-cased text. -/
theorem factualHasVague_eq_lower (answer : List Char) :
    Evaluator.factualHasVague answer =
      Evaluator.vague_terms.any (fun t => containsSub t (pyLower answer)) := by
  unfold Evaluator.factualHasVague Evaluator.factualAnswerLower
  simp only [Evaluator.vague_terms, List.any_cons, List.any_nil]
  rw [containsSub_pyStrip_of (pyLower answer) (by decide) (by decide) (by decide),
    containsSub_pyStrip_of (pyLower answer) (by decide) (by decide) (by decide),
    containsSub_pyStrip_of (pyLower answer) (by decide) (by decide) (by decide),
    containsSub_pyStrip_of (pyLower answer) (by decide) (by decide) (by decide),
    containsSub_pyStrip_of (pyLower answer) (by decide) (by decide) (by decide)]

/-! ### Claim C8 -/

/-- C8: for every answer, the comparative `structure_score` is exactly 1.0
when the structure pattern (`\n\s*[-•*]` or a numbered-list marker `\d+\.`)
matches somewhere in the original-case text, and exactly 0.5 otherwise; it is
never zero. -/
theorem C8_structure_score_binary (answer : List Char) :
    ((Evaluator.evaluate_comparative answer).structure_score =
      if Evaluator.compHasStructure answer then 1 else 0.5) ∧
    (Evaluator.evaluate_comparative answer).structure_score ≠ 0 := by
  have hfield : (Evaluator.evaluate_comparative answer).structure_score =
      round3 (Evaluator.compStructureScore answer) := rfl
  rw [hfield]
  unfold Evaluator.compStructureScore
  by_cases h : Evaluator.compHasStructure answer = true
  · rw [if_pos h, round3_one]
    norm_num
  · rw [if_neg h]
    have h05 : round3 (0.5 : ℚ) = 0.5 := by
      have he : (0.5 : ℚ) = 1/2 := by norm_num
      rw [he, round3_half]
    rw [h05]
    norm_num

/-! ### Claim C6 -/

/-- C6: for every answer string, the factual `clarity_score` is 0.0 exactly
when the lower-cased text contains one of the five vague-language markers, and
1.0 otherwise; in particular the concrete vague answer scores 0.0. -/
theorem C6_clarity_vague_gate (answer : List Char) :
    ((Evaluator.evaluate_factual answer).clarity_score =
      if Evaluator.vague_terms.any (fun t => containsSub t (pyLower answer))
      then 0 else 1) ∧
    (Evaluator.evaluate_factual (strL "maybe it is unclear")).clarity_score = 0 := by
  constructor
  · have hfield : (Evaluator.evaluate_factual answer).clarity_score =
        round3 (Evaluator.factualClarityScore answer) := rfl
    rw [hfield]
    unfold Evaluator.factualClarityScore
    rw [factualHasVague_eq_lower]
    by_cases h : Evaluator.vague_terms.any (fun t => containsSub t (pyLower answer)) = true
    · rw [if_pos h, round3_zero]
    · rw [if_neg h, round3_one]
  · have hfield : (Evaluator.evaluate_factual (strL "maybe it is unclear")).clarity_score =
        round3 (Evaluator.factualClarityScore (strL "maybe it is unclear")) := rfl
    rw [hfield]
    unfold Evaluator.factualClarityScore
    rw [if_pos (show Evaluator.factualHasVague (strL "maybe it is unclear") = true by decide),
      round3_zero]

/-! ### The four scorers on the empty answer -/

theorem factual_empty_fields :
    Evaluator.factualLengthScore [] = 1 ∧
    Evaluator.factualSpecificityScore [] = 0 ∧
    Evaluator.factualClarityScore [] = 1 ∧
    Evaluator.factualTotalRaw [] = 3/5 := by
  have hL : Evaluator.factualLengthScore [] = 1 := rfl
  have hS : Evaluator.factualSpecificityScore [] = 0 := by
    unfold Evaluator.factualSpecificityScore
    rw [show Evaluator.factualHasNumber [] = false from rfl,
      show Evaluator.factualHasURL [] = false from rfl,
      show Evaluator.factualHasName [] = false from rfl]
    norm_num [Evaluator.specRaw]
  have hC : Evaluator.factualClarityScore [] = 1 := rfl
  refine ⟨hL, hS, hC, ?_⟩
  unfold Evaluator.factualTotalRaw
  rw [hL, hS, hC]
  norm_num

theorem round3_point6 : round3 (3/5) = 0.6 := by
  have h := round3_eq_low (q := 3/5) (n := 600) (by norm_num) (by norm_num)
  rw [h]
  norm_num

/-! ### Claim C3 (the spec's expected total for the empty factual answer) -/

/-- C3 counterexample: on the empty answer with category factual the code
produces `total_score = 0.6` (= 0.3·1.0 + 0.4·0.0 + 0.3·1.0), not the 0.3 the
claim states. -/
theorem C3_counterexample :
    Evaluator.evaluate [] "factual" =
      Except.ok (EvalResult.factual (Evaluator.evaluate_factual [])) ∧
    (Evaluator.evaluate_factual []).total_score = 0.6 ∧
    ¬ (Evaluator.evaluate_factual []).total_score = 0.3 := by
  obtain ⟨-, -, -, hT⟩ := factual_empty_fields
  have htot : (Evaluator.evaluate_factual []).total_score = 0.6 := by
    have hfield : (Evaluator.evaluate_factual []).total_score =
        round3 (Evaluator.factualTotalRaw []) := rfl
    rw [hfield, hT, round3_point6]
  refine ⟨rfl, htot, ?_⟩
  rw [htot]
  norm_num

/-- C3 (amended): `evaluate("", "factual")` yields `length_score = 1.0`,
`specificity_score = 0.0`, `clarity_score = 1.0` and `total_score = 0.6`. -/
theorem C3_amended_empty_factual :
    Evaluator.evaluate [] "factual" =
      Except.ok (EvalResult.factual (Evaluator.evaluate_factual [])) ∧
    (Evaluator.evaluate_factual []).length_score = 1 ∧
    (Evaluator.evaluate_factual []).specificity_score = 0 ∧
    (Evaluator.evaluate_factual []).clarity_score = 1 ∧
    (Evaluator.evaluate_factual []).total_score = 0.6 := by
  obtain ⟨hL, hS, hC, hT⟩ := factual_empty_fields
  refine ⟨rfl, ?_, ?_, ?_, ?_⟩
  · have hfield : (Evaluator.evaluate_factual []).length_score =
        round3 (Evaluator.factualLengthScore []) := rfl
    rw [hfield, hL, round3_one]
  · have hfield : (Evaluator.evaluate_factual []).specificity_score =
        round3 (Evaluator.factualSpecificityScore []) := rfl
    rw [hfield, hS, round3_zero]
  · have hfield : (Evaluator.evaluate_factual []).clarity_score =
        round3 (Evaluator.factualClarityScore []) := rfl
    rw [hfield, hC, round3_one]
  · have hfield : (Evaluator.evaluate_factual []).total_score =
        round3 (Evaluator.factualTotalRaw []) := rfl
    rw [hfield, hT, round3_point6]

theorem proc_empty_fields :
    Evaluator.procStepScore [] = 0 ∧
    Evaluator.procLogicScore [] = 0 ∧
    Evaluator.procActionScore [] = 0 ∧
    Evaluator.procTotalRaw [] = 0 := by
  have h1 : Evaluator.procStepScore [] = 0 := by
    unfold Evaluator.procStepScore
    rw [show Evaluator.procStepMarkers [] = 0 from rfl]
    norm_num [min_def]
  have h2 : Evaluator.procLogicScore [] = 0 := by
    unfold Evaluator.procLogicScore
    rw [show Evaluator.procConnectorCount [] = 0 from rfl]
    norm_num [min_def]
  have h3 : Evaluator.procActionScore [] = 0 := by
    unfold Evaluator.procActionScore
    rw [show Evaluator.procActionCount [] = 0 from rfl]
    norm_num [min_def]
  refine ⟨h1, h2, h3, ?_⟩
  unfold Evaluator.procTotalRaw
  rw [h1, h2, h3]
  norm_num

theorem comp_empty_fields :
    Evaluator.compComparisonScore [] = 0 ∧
    Evaluator.compDimensionScore [] = 0 ∧
    Evaluator.compStructureScore [] = 0.5 ∧
    Evaluator.compLengthScore [] = 0.4 ∧
    Evaluator.compTotalRaw [] = 9/50 := by
  have h1 : Evaluator.compComparisonScore [] = 0 := by
    unfold Evaluator.compComparisonScore
    rw [show Evaluator.compComparisonCount [] = 0 from rfl]
    norm_num [min_def]
  have h2 : Evaluator.compDimensionScore [] = 0 := by
    unfold Evaluator.compDimensionScore
    rw [show Evaluator.compDimensionCount [] = 0 from rfl]
    norm_num [min_def]
  have h3 : Evaluator.compStructureScore [] = 0.5 := rfl
  have h4 : Evaluator.compLengthScore [] = 0.4 := rfl
  refine ⟨h1, h2, h3, h4, ?_⟩
  unfold Evaluator.compTotalRaw
  rw [h1, h2, h3, h4]
  norm_num

theorem rec_empty_fields :
    Evaluator.recRecommendationScore [] = 0 ∧
    Evaluator.recReasoningScore [] = 0 ∧
    Evaluator.recConstraintScore [] = 0 ∧
    Evaluator.recDiversityScore [] = 0 ∧
    Evaluator.recTotalRaw [] = 0 := by
  have h1 : Evaluator.recRecommendationScore [] = 0 := rfl
  have h2 : Evaluator.recReasoningScore [] = 0 := by
    unfold Evaluator.recReasoningScore
    rw [show Evaluator.recReasoningCount [] = 0 from rfl]
    norm_num [min_def]
  have h3 : Evaluator.recConstraintScore [] = 0 := by
    unfold Evaluator.recConstraintScore
    rw [show Evaluator.recConstraintCount [] = 0 from rfl]
    norm_num [min_def]
  have h4 : Evaluator.recDiversityScore [] = 0 := by
    unfold Evaluator.recDiversityScore
    rw [show Evaluator.recOptionMarkers [] = 0 from rfl]
    norm_num [min_def]
  refine ⟨h1, h2, h3, h4, ?_⟩
  unfold Evaluator.recTotalRaw
  rw [h1, h2, h3, h4]
  norm_num

theorem round3_point18 : round3 (9/50) = 0.18 := by
  have h := round3_eq_low (q := 9/50) (n := 180) (by norm_num) (by norm_num)
  rw [h]
  norm_num

theorem round3_point4 : round3 (2/5) = 0.4 := by
  have h := round3_eq_low (q := 2/5) (n := 400) (by norm_num) (by norm_num)
  rw [h]
  norm_num

/-! ### Claim C4 -/

/-- C4: on the empty answer every category's scorer returns normally; all
pattern counts are zero and the length-based scores take the band of the
shortest answers (factual: 1.0 for `len ≤ 150`; comparative: 0.4 for
`len < 100`). -/
theorem C4_empty_answer_total :
    (Evaluator.evaluate [] "factual" =
        Except.ok (EvalResult.factual (Evaluator.evaluate_factual [])) ∧
      (Evaluator.evaluate_factual []).answer_length = 0 ∧
      (Evaluator.evaluate_factual []).has_specific_info = false ∧
      (Evaluator.evaluate_factual []).specificity_score = 0 ∧
      (Evaluator.evaluate_factual []).length_score = 1) ∧
    (Evaluator.evaluate [] "procedural" =
        Except.ok (EvalResult.procedural (Evaluator.evaluate_procedural [])) ∧
      (Evaluator.evaluate_procedural []).step_markers_found = 0 ∧
      (Evaluator.evaluate_procedural []).connectors_found = 0 ∧
      (Evaluator.evaluate_procedural []).actions_found = 0 ∧
      (Evaluator.evaluate_procedural []).step_score = 0 ∧
      (Evaluator.evaluate_procedural []).logic_score = 0 ∧
      (Evaluator.evaluate_procedural []).action_score = 0 ∧
      (Evaluator.evaluate_procedural []).total_score = 0) ∧
    (Evaluator.evaluate [] "comparative" =
        Except.ok (EvalResult.comparative (Evaluator.evaluate_comparative [])) ∧
      (Evaluator.evaluate_comparative []).comparison_words_found = 0 ∧
      (Evaluator.evaluate_comparative []).dimensions_found = 0 ∧
      (Evaluator.evaluate_comparative []).comparison_score = 0 ∧
      (Evaluator.evaluate_comparative []).dimension_score = 0 ∧
      (Evaluator.evaluate_comparative []).structure_score = 0.5 ∧
      (Evaluator.evaluate_comparative []).length_score = 0.4 ∧
      (Evaluator.evaluate_comparative []).total_score = 0.18) ∧
    (Evaluator.evaluate [] "recommendation" =
        Except.ok (EvalResult.recommendation (Evaluator.evaluate_recommendation [])) ∧
      (Evaluator.evaluate_recommendation []).has_recommendation = false ∧
      (Evaluator.evaluate_recommendation []).reasoning_indicators = 0 ∧
      (Evaluator.evaluate_recommendation []).constraint_awareness = 0 ∧
      (Evaluator.evaluate_recommendation []).recommendation_score = 0 ∧
      (Evaluator.evaluate_recommendation []).reasoning_score = 0 ∧
      (Evaluator.evaluate_recommendation []).constraint_score = 0 ∧
      (Evaluator.evaluate_recommendation []).diversity_score = 0 ∧
      (Evaluator.evaluate_recommendation []).total_score = 0) := by
  obtain ⟨-, hfS, -, -⟩ := factual_empty_fields
  obtain ⟨hp1, hp2, hp3, hp4⟩ := proc_empty_fields
  obtain ⟨hc1, hc2, hc3, hc4, hc5⟩ := comp_empty_fields
  obtain ⟨hr1, hr2, hr3, hr4, hr5⟩ := rec_empty_fields
  refine ⟨⟨rfl, rfl, rfl, ?_, ?_⟩, ⟨rfl, rfl, rfl, rfl, ?_, ?_, ?_, ?_⟩,
    ⟨rfl, rfl, rfl, ?_, ?_, ?_, ?_, ?_⟩, ⟨rfl, rfl, rfl, rfl, ?_, ?_, ?_, ?_, ?_⟩⟩
  · show round3 (Evaluator.factualSpecificityScore []) = 0
    rw [hfS, round3_zero]
  · show round3 (Evaluator.factualLengthScore []) = 1
    rw [show Evaluator.factualLengthScore [] = 1 from rfl, round3_one]
  · show round3 (Evaluator.procStepScore []) = 0
    rw [hp1, round3_zero]
  · show round3 (Evaluator.procLogicScore []) = 0
    rw [hp2, round3_zero]
  · show round3 (Evaluator.procActionScore []) = 0
    rw [hp3, round3_zero]
  · show round3 (Evaluator.procTotalRaw []) = 0
    rw [hp4, round3_zero]
  · show round3 (Evaluator.compComparisonScore []) = 0
    rw [hc1, round3_zero]
  · show round3 (Evaluator.compDimensionScore []) = 0
    rw [hc2, round3_zero]
  · show round3 (Evaluator.compStructureScore []) = 0.5
    rw [hc3]
    have he : (0.5 : ℚ) = 1/2 := by norm_num
    rw [he, round3_half]
  · show round3 (Evaluator.compLengthScore []) = 0.4
    rw [hc4]
    have he : (0.4 : ℚ) = 2/5 := by norm_num
    rw [he, round3_point4]
    norm_num
  · show round3 (Evaluator.compTotalRaw []) = 0.18
    rw [hc5, round3_point18]
  · show round3 (Evaluator.recRecommendationScore []) = 0
    rw [hr1, round3_zero]
  · show round3 (Evaluator.recReasoningScore []) = 0
    rw [hr2, round3_zero]
  · show round3 (Evaluator.recConstraintScore []) = 0
    rw [hr3, round3_zero]
  · show round3 (Evaluator.recDiversityScore []) = 0
    rw [hr4, round3_zero]
  · show round3 (Evaluator.recTotalRaw []) = 0
    rw [hr5, round3_zero]

/-! ### Claim C7 -/

/-- C7: the procedural step-marker count is the sum of the `re.findall`
counts of the three step patterns on the lower-cased text, and
`step_score = min(count/3, 1)`; on the three-step example the count reaches
at least 3 and `step_score` saturates at 1.0. -/
theorem C7_step_marker_count (answer : List Char) :
    ((Evaluator.evaluate_procedural answer).step_markers_found =
      countMatches matchNumDot (pyLower answer) +
      countMatches matchStepNum (pyLower answer) +
      countMatches (matchAlt [strL "first", strL "second", strL "third",
        strL "then", strL "next", strL "finally"]) (pyLower answer)) ∧
    ((Evaluator.evaluate_procedural answer).step_score =
      round3 (min (((Evaluator.evaluate_procedural answer).step_markers_found : ℚ) / 3) 1)) ∧
    3 ≤ (Evaluator.evaluate_procedural
      (strL "Step 1. Go to Central Library. Step 2. Fill the form. Step 3. Submit it.")).step_markers_found ∧
    (Evaluator.evaluate_procedural
      (strL "Step 1. Go to Central Library. Step 2. Fill the form. Step 3. Submit it.")).step_score = 1 := by
  refine ⟨?_, rfl, ?_, ?_⟩
  · show Evaluator.procStepMarkers answer = _
    unfold Evaluator.procStepMarkers Evaluator.step_patterns
    simp only [List.map_cons, List.map_nil, List.sum_cons, List.sum_nil]
    omega
  · show 3 ≤ Evaluator.procStepMarkers
      (strL "Step 1. Go to Central Library. Step 2. Fill the form. Step 3. Submit it.")
    decide
  · show round3 (Evaluator.procStepScore
      (strL "Step 1. Go to Central Library. Step 2. Fill the form. Step 3. Submit it.")) = 1
    unfold Evaluator.procStepScore
    rw [show Evaluator.procStepMarkers
      (strL "Step 1. Go to Central Library. Step 2. Fill the form. Step 3. Submit it.") = 6 from rfl]
    have hmin : min (((6 : ℕ) : ℚ) / 3) 1 = 1 := by
      norm_num [min_def]
    rw [hmin, round3_one]

/-! ### Claim C9 -/

/-- C9: the word-list detectors are substring tests, not whole-word tests: any
answer whose lower-cased text contains "has" also counts "as", so the
recommendation scorer reports at least two reasoning indicators and a
saturated `reasoning_score` of 1.0. -/
theorem C9_substring_matching (answer : List Char)
    (h : containsSub (strL "has") (pyLower answer) = true) :
    2 ≤ (Evaluator.evaluate_recommendation answer).reasoning_indicators ∧
    (Evaluator.evaluate_recommendation answer).reasoning_score = 1 := by
  have has_as : containsSub (strL "as") (pyLower answer) = true := by
    obtain ⟨a, b, hab⟩ := containsSub_iff.mp h
    apply containsSub_iff.mpr
    refine ⟨a ++ ['h'], b, ?_⟩
    rw [hab, show strL "has" = 'h' :: strL "as" from rfl]
    simp
  have hcount : 2 ≤ Evaluator.recReasoningCount answer := by
    unfold Evaluator.recReasoningCount
    rw [show Evaluator.reasoning_words =
      [strL "because", strL "since"] ++ strL "as" ::
        ([strL "due to", strL "offers", strL "provides"] ++ strL "has" :: [])
      from rfl]
    exact length_filter_two _ _ _ _ _ _ has_as h
  refine ⟨hcount, ?_⟩
  show round3 (Evaluator.recReasoningScore answer) = 1
  unfold Evaluator.recReasoningScore
  rw [min_div_eq_one (by norm_num) (by exact_mod_cast hcount), round3_one]

/-- Witness for C9 at a concrete input. -/
theorem C9_witness :
    containsSub (strL "has") (pyLower (strL "has")) = true ∧
    2 ≤ (Evaluator.evaluate_recommendation (strL "has")).reasoning_indicators ∧
    (Evaluator.evaluate_recommendation (strL "has")).reasoning_score = 1 :=
  ⟨by decide, C9_substring_matching (strL "has") (by decide)⟩

/-! ### Claim C10 -/

/-- C10: `total_score` is the rounding of the weighted sum of the unrounded
sub-scores, for every category; on the one-step-marker procedural answer
`"1."` the reported `step_score` is 0.333 while `total_score` is 0.133, which
differs from the weighted sum of the rounded sub-scores (0.1332). -/
theorem C10_rounding_after_summation (answer : List Char) :
    ((Evaluator.evaluate_factual answer).total_score =
      round3 (0.3 * Evaluator.factualLengthScore answer +
        0.4 * Evaluator.factualSpecificityScore answer +
        0.3 * Evaluator.factualClarityScore answer)) ∧
    ((Evaluator.evaluate_procedural answer).total_score =
      round3 (0.4 * Evaluator.procStepScore answer +
        0.3 * Evaluator.procLogicScore answer +
        0.3 * Evaluator.procActionScore answer)) ∧
    ((Evaluator.evaluate_comparative answer).total_score =
      round3 (0.3 * Evaluator.compComparisonScore answer +
        0.3 * Evaluator.compDimensionScore answer +
        0.2 * Evaluator.compStructureScore answer +
        0.2 * Evaluator.compLengthScore answer)) ∧
    ((Evaluator.evaluate_recommendation answer).total_score =
      round3 (0.3 * Evaluator.recRecommendationScore answer +
        0.3 * Evaluator.recReasoningScore answer +
        0.25 * Evaluator.recConstraintScore answer +
        0.15 * Evaluator.recDiversityScore answer)) ∧
    ((Evaluator.evaluate_procedural (strL "1.")).step_markers_found = 1 ∧
     (Evaluator.evaluate_procedural (strL "1.")).step_score = 0.333 ∧
     (Evaluator.evaluate_procedural (strL "1.")).total_score = 0.133 ∧
     0.4 * (Evaluator.evaluate_procedural (strL "1.")).step_score +
       0.3 * (Evaluator.evaluate_procedural (strL "1.")).logic_score +
       0.3 * (Evaluator.evaluate_procedural (strL "1.")).action_score ≠
       (Evaluator.evaluate_procedural (strL "1.")).total_score) := by
  have hm : Evaluator.procStepMarkers (strL "1.") = 1 := rfl
  have hstepRaw : Evaluator.procStepScore (strL "1.") = 1/3 := by
    unfold Evaluator.procStepScore
    rw [hm]
    norm_num [min_def]
  have hlogRaw : Evaluator.procLogicScore (strL "1.") = 0 := by
    unfold Evaluator.procLogicScore
    rw [show Evaluator.procConnectorCount (strL "1.") = 0 from rfl]
    norm_num [min_def]
  have hactRaw : Evaluator.procActionScore (strL "1.") = 0 := by
    unfold Evaluator.procActionScore
    rw [show Evaluator.procActionCount (strL "1.") = 0 from rfl]
    norm_num [min_def]
  have hstep : (Evaluator.evaluate_procedural (strL "1.")).step_score = 333/1000 := by
    show round3 (Evaluator.procStepScore (strL "1.")) = 333/1000
    rw [hstepRaw]
    have h := round3_eq_low (q := 1/3) (n := 333) (by norm_num) (by norm_num)
    rw [h]
    norm_num
  have hlog : (Evaluator.evaluate_procedural (strL "1.")).logic_score = 0 := by
    show round3 (Evaluator.procLogicScore (strL "1.")) = 0
    rw [hlogRaw, round3_zero]
  have hact : (Evaluator.evaluate_procedural (strL "1.")).action_score = 0 := by
    show round3 (Evaluator.procActionScore (strL "1.")) = 0
    rw [hactRaw, round3_zero]
  have htot : (Evaluator.evaluate_procedural (strL "1.")).total_score = 133/1000 := by
    show round3 (Evaluator.procTotalRaw (strL "1.")) = 133/1000
    unfold Evaluator.procTotalRaw
    rw [hstepRaw, hlogRaw, hactRaw]
    have harg : (0.4 * (1/3) + 0.3 * 0 + 0.3 * 0 : ℚ) = 2/15 := by norm_num
    rw [harg]
    have h := round3_eq_low (q := 2/15) (n := 133) (by norm_num) (by norm_num)
    rw [h]
    norm_num
  refine ⟨rfl, rfl, rfl, rfl, rfl, ?_, ?_, ?_⟩
  · rw [hstep]
    norm_num
  · rw [htot]
    norm_num
  · rw [hstep, hlog, hact, htot]
    norm_num

/-! ### Claim C5 -/

/-- The claim's "answer with no URL" / "well-formed URL" condition, read
lexically as the spec's detector does: the lower-cased text contains `http`
or `www.`. -/
def hasURLText (s : List Char) : Bool :=
  containsSub (strL "http") (pyLower s) || containsSub (strL "www.") (pyLower s)

theorem round3_point3 : round3 (3/10) = 3/10 := by
  have h := round3_eq_low (q := 3/10) (n := 300) (by norm_num) (by norm_num)
  rw [h]
  norm_num

theorem round3_point7 : round3 (7/10) = 7/10 := by
  have h := round3_eq_low (q := 7/10) (n := 700) (by norm_num) (by norm_num)
  rw [h]
  norm_num

theorem round3_two_fifths : round3 (2/5) = 2/5 := by
  have h := round3_eq_low (q := 2/5) (n := 400) (by norm_num) (by norm_num)
  rw [h]
  norm_num

theorem round3_three_fifths : round3 (3/5) = 3/5 := by
  have h := round3_eq_low (q := 3/5) (n := 600) (by norm_num) (by norm_num)
  rw [h]
  norm_num

/-- Turning on the URL flag strictly increases the rounded specificity score,
whatever happens to the other two (monotone) flags. -/
theorem round3_specRaw_lt {b1 b2 b1' b2' : Bool} (h1 : b1 = true → b1' = true)
    (h2 : b2 = true → b2' = true) :
    round3 (Evaluator.specRaw b1 false b2) <
      round3 (Evaluator.specRaw b1' true b2') := by
  have e1 : Evaluator.specRaw false false false = 0 := by norm_num [Evaluator.specRaw]
  have e2 : Evaluator.specRaw true false false = 2/5 := by norm_num [Evaluator.specRaw]
  have e3 : Evaluator.specRaw false false true = 3/10 := by norm_num [Evaluator.specRaw]
  have e4 : Evaluator.specRaw true false true = 7/10 := by norm_num [Evaluator.specRaw]
  have e5 : Evaluator.specRaw false true false = 3/10 := by norm_num [Evaluator.specRaw]
  have e6 : Evaluator.specRaw true true false = 7/10 := by norm_num [Evaluator.specRaw]
  have e7 : Evaluator.specRaw false true true = 3/5 := by norm_num [Evaluator.specRaw]
  have e8 : Evaluator.specRaw true true true = 1 := by norm_num [Evaluator.specRaw]
  cases b1 <;> cases b2 <;> cases b1' <;> cases b2' <;>
    first
      | exact absurd (h1 rfl) Bool.false_ne_true
      | exact absurd (h2 rfl) Bool.false_ne_true
      | (simp only [e1, e2, e3, e4, e5, e6, e7, e8, round3_zero, round3_one,
          round3_point3, round3_point7, round3_two_fifths, round3_three_fifths]
         norm_num)

/-- Turning on the URL flag cannot decrease the raw specificity score. -/
theorem specRaw_mono_le {b1 b2 b1' b2' : Bool} (h1 : b1 = true → b1' = true)
    (h2 : b2 = true → b2' = true) :
    Evaluator.specRaw b1 false b2 ≤ Evaluator.specRaw b1' true b2' := by
  cases b1 <;> cases b2 <;> cases b1' <;> cases b2' <;>
    first
      | exact absurd (h1 rfl) Bool.false_ne_true
      | exact absurd (h2 rfl) Bool.false_ne_true
      | norm_num [Evaluator.specRaw]

/-- C5 counterexample: the claim fails as stated.  `Fine ` has no URL and the
appended text `www.maybe.example.com` is a well-formed URL, yet the total
score drops from 0.6 to 0.42, because the URL's host name introduces the
vague-language marker "maybe" which zeroes `clarity_score`. -/
theorem C5_counterexample :
    hasURLText (strL "Fine ") = false ∧
    hasURLText (strL "www.maybe.example.com") = true ∧
    (Evaluator.evaluate_factual (strL "Fine " ++ strL "www.maybe.example.com")).total_score <
      (Evaluator.evaluate_factual (strL "Fine ")).total_score := by
  refine ⟨by decide, by decide, ?_⟩
  have hTold : (Evaluator.evaluate_factual (strL "Fine ")).total_score = 3/5 := by
    show round3 (Evaluator.factualTotalRaw (strL "Fine ")) = 3/5
    unfold Evaluator.factualTotalRaw
    rw [show Evaluator.factualLengthScore (strL "Fine ") = 1 from rfl]
    have hS : Evaluator.factualSpecificityScore (strL "Fine ") = 0 := by
      unfold Evaluator.factualSpecificityScore
      rw [show Evaluator.factualHasNumber (strL "Fine ") = false from by decide,
        show Evaluator.factualHasURL (strL "Fine ") = false from by decide,
        show Evaluator.factualHasName (strL "Fine ") = false from by decide]
      norm_num [Evaluator.specRaw]
    rw [hS, show Evaluator.factualClarityScore (strL "Fine ") = 1 from by
      unfold Evaluator.factualClarityScore
      rw [show Evaluator.factualHasVague (strL "Fine ") = false from by decide]
      rfl]
    have harg : (0.3 * 1 + 0.4 * 0 + 0.3 * 1 : ℚ) = 3/5 := by norm_num
    rw [harg, round3_three_fifths]
  have hTnew : (Evaluator.evaluate_factual
      (strL "Fine " ++ strL "www.maybe.example.com")).total_score = 21/50 := by
    show round3 (Evaluator.factualTotalRaw
      (strL "Fine " ++ strL "www.maybe.example.com")) = 21/50
    unfold Evaluator.factualTotalRaw
    rw [show Evaluator.factualLengthScore
      (strL "Fine " ++ strL "www.maybe.example.com") = 1 from rfl]
    have hS : Evaluator.factualSpecificityScore
        (strL "Fine " ++ strL "www.maybe.example.com") = 3/10 := by
      unfold Evaluator.factualSpecificityScore
      rw [show Evaluator.factualHasNumber
          (strL "Fine " ++ strL "www.maybe.example.com") = false from by decide,
        show Evaluator.factualHasURL
          (strL "Fine " ++ strL "www.maybe.example.com") = true from by decide,
        show Evaluator.factualHasName
          (strL "Fine " ++ strL "www.maybe.example.com") = false from by decide]
      norm_num [Evaluator.specRaw]
    rw [hS, show Evaluator.factualClarityScore
        (strL "Fine " ++ strL "www.maybe.example.com") = 0 from by
      unfold Evaluator.factualClarityScore
      rw [show Evaluator.factualHasVague
        (strL "Fine " ++ strL "www.maybe.example.com") = true from by decide]
      rfl]
    have harg : (0.3 * 1 + 0.4 * (3/10) + 0.3 * 0 : ℚ) = 21/50 := by norm_num
    rw [harg]
    have h := round3_eq_low (q := 21/50) (n := 420) (by norm_num) (by norm_num)
    rw [h]
    norm_num
  rw [hTold, hTnew]
  norm_num

/-- C5 (amended): appending a well-formed URL to an answer with no URL always
strictly increases `specificity_score` (it is never already capped, since
without a URL at most 0.7 of the weight is available); `total_score` does not
decrease provided the append leaves the length band and the vague-language
gate unchanged — without those provisos the total can drop, as the
counterexample shows. -/
theorem C5_amended_url_monotonicity (ans url : List Char)
    (h1 : hasURLText ans = false)
    (h2 : hasURLText url = true)
    (h3 : Evaluator.factualLengthScore (ans ++ url) = Evaluator.factualLengthScore ans)
    (h4 : Evaluator.factualHasVague (ans ++ url) = Evaluator.factualHasVague ans) :
    (Evaluator.evaluate_factual ans).specificity_score <
      (Evaluator.evaluate_factual (ans ++ url)).specificity_score ∧
    (Evaluator.evaluate_factual ans).total_score ≤
      (Evaluator.evaluate_factual (ans ++ url)).total_score := by
  have hmap : pyLower (ans ++ url) = pyLower ans ++ pyLower url := by
    simp [pyLower]
  have hURLans : Evaluator.factualHasURL ans = false := by
    rw [factualHasURL_eq_lower]
    exact h1
  have hURLnew : Evaluator.factualHasURL (ans ++ url) = true := by
    rw [factualHasURL_eq_lower, hmap]
    have h2' : containsSub (strL "http") (pyLower url) = true ∨
        containsSub (strL "www.") (pyLower url) = true := by
      simpa [hasURLText] using h2
    rcases h2' with hc | hc
    · simp [containsSub_append_left (pyLower ans) hc]
    · simp [containsSub_append_left (pyLower ans) hc]
  have hNumMono : Evaluator.factualHasNumber ans = true →
      Evaluator.factualHasNumber (ans ++ url) = true := by
    intro hh
    unfold Evaluator.factualHasNumber at hh ⊢
    simp [List.any_append, hh]
  have hNameMono : Evaluator.factualHasName ans = true →
      Evaluator.factualHasName (ans ++ url) = true := by
    intro hh
    unfold Evaluator.factualHasName at hh ⊢
    exact searchB_append_of url (fun u hu => matchName_append url hu) hh
  constructor
  · show round3 (Evaluator.factualSpecificityScore ans) <
      round3 (Evaluator.factualSpecificityScore (ans ++ url))
    unfold Evaluator.factualSpecificityScore
    rw [hURLans, hURLnew]
    exact round3_specRaw_lt hNumMono hNameMono
  · show round3 (Evaluator.factualTotalRaw ans) ≤
      round3 (Evaluator.factualTotalRaw (ans ++ url))
    apply round3_mono
    unfold Evaluator.factualTotalRaw
    have hC : Evaluator.factualClarityScore (ans ++ url) =
        Evaluator.factualClarityScore ans := by
      unfold Evaluator.factualClarityScore
      rw [h4]
    have hS : Evaluator.factualSpecificityScore ans ≤
        Evaluator.factualSpecificityScore (ans ++ url) := by
      unfold Evaluator.factualSpecificityScore
      rw [hURLans, hURLnew]
      exact specRaw_mono_le hNumMono hNameMono
    rw [h3, hC]
    linarith

/-- Witness for the amended C5 at a concrete input. -/
theorem C5_witness :
    hasURLText (strL "Ok") = false ∧
    hasURLText (strL "http://a") = true ∧
    Evaluator.factualLengthScore (strL "Ok" ++ strL "http://a") =
      Evaluator.factualLengthScore (strL "Ok") ∧
    Evaluator.factualHasVague (strL "Ok" ++ strL "http://a") =
      Evaluator.factualHasVague (strL "Ok") ∧
    (Evaluator.evaluate_factual (strL "Ok")).specificity_score <
      (Evaluator.evaluate_factual (strL "Ok" ++ strL "http://a")).specificity_score ∧
    (Evaluator.evaluate_factual (strL "Ok")).total_score ≤
      (Evaluator.evaluate_factual (strL "Ok" ++ strL "http://a")).total_score := by
  obtain ⟨hA, hB⟩ := C5_amended_url_monotonicity (strL "Ok") (strL "http://a")
    (by decide) (by decide) rfl (by decide)
  exact ⟨by decide, by decide, rfl, by decide, hA, hB⟩
